import Mathlib

/-!
Shallow embedding of the playback/compositing/recording engine of the
CineGen application: the data model from src/types.ts and the Player
component (React state hooks, transport controls, sequencing callbacks,
the Ken Burns animation formula, canvas word wrapping, and the recording
session).  Timestamps and durations are naturals (milliseconds); the
animation formula is modelled over the reals.
-/

/-- Dialogue record from src/types.ts (`audioUrl?: string` becomes an option). -/
structure Dialogue where
  id : String
  characterId : String
  text : String
  emotion : String
  audioUrl : Option String
  isGeneratingAudio : Bool
  deriving DecidableEq

/-- Scene record from src/types.ts (`imageUrl?` and `duration?` become options). -/
structure Scene where
  id : String
  order : Nat
  description : String
  imagePrompt : String
  imageUrl : Option String
  dialogues : List Dialogue
  isGeneratingImage : Bool
  duration : Option Nat
  deriving DecidableEq

/-- The four React state hooks of the Player component:
`currentSceneIndex`, `currentDialogueIndex`, `isPlaying`, `isRecording`. -/
structure PlayerState where
  currentSceneIndex : Nat
  currentDialogueIndex : Nat
  isPlaying : Bool
  isRecording : Bool
  deriving DecidableEq

/-- The rewind (SkipBack) button.  Its onClick handler runs
`setCurrentSceneIndex(0); setCurrentDialogueIndex(0)`.  The button is rendered
with `disabled={isRecording}`; a disabled button fires no onClick handler, so a
click while recording leaves the state unchanged. -/
def clickRewind (s : PlayerState) : PlayerState :=
  if s.isRecording then s
  else { s with currentSceneIndex := 0, currentDialogueIndex := 0 }

/-- The play/pause toggle button: onClick runs `setIsPlaying(!isPlaying)`,
also rendered with `disabled={isRecording}`. -/
def clickPlayPause (s : PlayerState) : PlayerState :=
  if s.isRecording then s
  else { s with isPlaying := !s.isPlaying }

/-- The next-scene (SkipForward) button: onClick runs
`if (currentSceneIndex < scenes.length - 1) setCurrentSceneIndex(prev => prev + 1)`,
also rendered with `disabled={isRecording}`.  The JavaScript comparison is over
signed numbers (for an empty list `scenes.length - 1` is `-1`), so the bound is
taken in `Int`. -/
def clickNextScene (scenes : List Scene) (s : PlayerState) : PlayerState :=
  if s.isRecording then s
  else if (s.currentSceneIndex : Int) < (scenes.length : Int) - 1 then
    { s with currentSceneIndex := s.currentSceneIndex + 1 }
  else s

/-- The `handleDialogueEnd` callback.  It reads `isPlaying` from the render
closure it was created in (`captured`), and advances the dialogue index with a
functional update `setCurrentDialogueIndex(prev => prev + 1)` applied to the
state current at fire time (`s`).  For the audio element's `onEnded` attribute
the closure is rebound on every render, so there `captured = s`; for a
`setTimeout` scheduled earlier, `captured` is the state of the scheduling
render. -/
def handleDialogueEnd (captured s : PlayerState) : PlayerState :=
  if !captured.isPlaying then s
  else { s with currentDialogueIndex := s.currentDialogueIndex + 1 }

/-- The anonymous callback passed to `setTimeout(..., 1000)` in
`playNextDialogue` when the current scene has run out of dialogue lines.  It
reads `currentSceneIndex` from its closure (`captured`), advances the scene
with a functional update and resets the dialogue index, or else stops playback.
It performs no `isPlaying` check.  (The `else` branch also calls
`stopRecording()`, which asynchronously finalizes the recorder; that effect is
modelled separately and does not change the four state hooks here.) -/
def sceneFinishedTimeout (scenes : List Scene) (captured s : PlayerState) : PlayerState :=
  if (captured.currentSceneIndex : Int) < (scenes.length : Int) - 1 then
    { s with currentSceneIndex := s.currentSceneIndex + 1, currentDialogueIndex := 0 }
  else
    { s with isPlaying := false }

/-- Dwell duration for a dialogue line shown without audio:
`Math.max(2000, dialogue.text.length * 50)`. -/
def dwellDuration (text : String) : Nat :=
  max 2000 (text.length * 50)

/-- Action taken by `playNextDialogue` for one dialogue line. -/
inductive LineStep where
  | playAudio (url : String)
  | dwell (ms : Nat)
  deriving DecidableEq

/-- Decision made by `playNextDialogue` for the current dialogue line:
`if (dialogue.audioUrl && audioRef.current)` start audio playback, else show
the text for `dwellDuration`.  JavaScript truthiness makes an empty string
fall to the dwell branch; the audio element ref is always attached. -/
def dialogueAction (d : Dialogue) : LineStep :=
  match d.audioUrl with
  | some url => if url.isEmpty then .dwell (dwellDuration d.text) else .playAudio url
  | none => .dwell (dwellDuration d.text)

/-- One full playback run of the sequencer, as the list of cursor positions
`(currentSceneIndex, currentDialogueIndex)` at which a dialogue line is
presented.  This iterates the `playNextDialogue` / `handleDialogueEnd` loop of
the Player with `isPlaying` held true: if the current scene is undefined the
run stops (`if (!currentScene) return`); if the dialogue index is within the
scene the line at the cursor is presented and the index advances; otherwise the
scene-finished timeout advances to the next scene or ends the run.  `fuel`
bounds the iteration count and is chosen large enough in `playTrace`. -/
def runFrom (scenes : List Scene) : Nat → Nat → Nat → List (Nat × Nat)
  | 0, _, _ => []
  | fuel + 1, si, di =>
    match scenes.get? si with
    | none => []
    | some sc =>
      if di < sc.dialogues.length then
        (si, di) :: runFrom scenes fuel si (di + 1)
      else if si < scenes.length - 1 then
        runFrom scenes fuel (si + 1) 0
      else []

/-- Fuel sufficient for a full run: one step per dialogue line plus one
transition step per scene, plus one. -/
def traceFuel (scenes : List Scene) : Nat :=
  ((scenes.map fun sc => sc.dialogues.length + 1).sum) + 1

/-- The cursor positions visited by a full playback run from `(0, 0)`. -/
def playTrace (scenes : List Scene) : List (Nat × Nat) :=
  runFrom scenes (traceFuel scenes) 0 0

/-- Specification-side enumeration: all positions `(i, j)` with `j` ranging
over the dialogue lines of the scene at array position `i`, in lexicographic
(array) order, starting at scene index `i0`. -/
def lexAux : Nat → List Scene → List (Nat × Nat)
  | _, [] => []
  | i, sc :: rest =>
    ((List.range sc.dialogues.length).map fun j => (i, j)) ++ lexAux (i + 1) rest

/-- Specification-side enumeration of all cursor positions in array order. -/
def lexTrace (scenes : List Scene) : List (Nat × Nat) :=
  lexAux 0 scenes

/-- Fuel needed for the tail of a run starting at scene index `si`. -/
def costFrom (scenes : List Scene) (si : Nat) : Nat :=
  (((scenes.drop si).map fun sc => sc.dialogues.length + 1).sum) + 1

/-- The `order` field of each scene visited by a full playback run, in the
sequence the scenes are played. -/
def visitedOrders (scenes : List Scene) : List Nat :=
  (playTrace scenes).map fun p => (((scenes.get? p.1).map Scene.order).getD 0)

/-- The animation-clock ref of the render loop: `startTimeRef = useRef(0)`.
A value of `0` means the origin is not yet set (JavaScript falsiness of `0`). -/
structure AnimClock where
  startTime : Nat
  deriving DecidableEq

/-- One animation frame: `if (!startTimeRef.current) startTimeRef.current =
timestamp; const progress = timestamp - startTimeRef.current`.  Returns the
updated clock and the elapsed time fed to the zoom/pan formula. -/
def renderTick (a : AnimClock) (timestamp : Nat) : AnimClock × Nat :=
  let a' := if a.startTime = 0 then AnimClock.mk timestamp else a
  (a', timestamp - a'.startTime)

/-- Effect of a change of `currentSceneIndex` on the animation clock: the
render effect's cleanup only cancels the animation frame
(`cancelAnimationFrame`); no statement in the component writes to
`startTimeRef` afterwards, so the clock is unchanged. -/
def sceneChangeClock (a : AnimClock) : AnimClock := a

/-- Events driving the animation clock: an animation frame at a timestamp, or
a change of the active scene index. -/
inductive ClockEvent where
  | tick (t : Nat)
  | sceneChange
  deriving DecidableEq

/-- Run the animation clock over a list of events, collecting the elapsed-time
values produced at each frame. -/
def runClock (a : AnimClock) : List ClockEvent → AnimClock × List Nat
  | [] => (a, [])
  | ClockEvent.tick t :: es =>
    let r := renderTick a t
    let rest := runClock r.1 es
    (rest.1, r.2 :: rest.2)
  | ClockEvent.sceneChange :: es => runClock (sceneChangeClock a) es

/-- Timestamps of the frame events in a list of clock events. -/
def ticksOf : List ClockEvent → List Nat
  | [] => []
  | ClockEvent.tick t :: es => t :: ticksOf es
  | ClockEvent.sceneChange :: es => ticksOf es

/-- Ken Burns zoom factor from the render loop:
`const scale = 1.0 + (Math.sin(progress * 0.0002) * 0.05)`. -/
noncomputable def scaleAt (progress : ℝ) : ℝ :=
  1.0 + Real.sin (progress * 0.0002) * 0.05

/-- Horizontal pan from the render loop:
`const panX = (Math.sin(progress * 0.0001) * 20)`. -/
noncomputable def panXAt (progress : ℝ) : ℝ :=
  Real.sin (progress * 0.0001) * 20

/-- JavaScript `text.split(' ')`: cut the character list at every single space.
Returns the first chunk and the remaining chunks, so the result is never empty
(for the empty string it is one empty chunk, as in JavaScript). -/
def splitSpace : List Char → List Char × List (List Char)
  | [] => ([], [])
  | c :: cs =>
    let r := splitSpace cs
    if c = ' ' then ([], r.1 :: r.2) else (c :: r.1, r.2)

/-- The word list `const words = text.split(' ')` of `wrapText`. -/
def splitWords (text : String) : List String :=
  ((splitSpace text.data).1 :: (splitSpace text.data).2).map List.asString

/-- Loop body of `wrapText`.  `line` is the accumulator, `n` the loop counter.
Each iteration builds `testLine = line + words[n] + ' '` and measures it; on
`testWidth > maxWidth && n > 0` the current line is flushed (a `fillText` call,
collected in order here) and the word starts a new line, otherwise the word is
appended.  After the loop the remaining line is flushed. -/
def wrapLines (measure : String → Nat) (maxWidth : Nat) :
    List String → Nat → String → List String
  | [], _, line => [line]
  | w :: ws, n, line =>
    if maxWidth < measure (line ++ w ++ " ") ∧ 0 < n then
      line :: wrapLines measure maxWidth ws (n + 1) (w ++ " ")
    else
      wrapLines measure maxWidth ws (n + 1) (line ++ w ++ " ")

/-- The `wrapText` helper of the Player: greedy word wrap of `text` against
width limit `maxWidth` under the text-measurement function `measure`
(`ctx.measureText(...).width`), returning the lines passed to `fillText` in
order. -/
def wrapText (measure : String → Nat) (maxWidth : Nat) (text : String) :
    List String :=
  wrapLines measure maxWidth (splitWords text) 0 ""

/-- Monotonicity of a measured-width function under string extension. -/
def MonotoneMeasure (measure : String → Nat) : Prop :=
  ∀ s t : String, measure s ≤ measure (s ++ t)

/-- Host environment of one `startRecording` call: whether the canvas ref is
attached and which of the capture APIs throw when invoked
(audio-graph construction in `setupAudioContext`, `canvas.captureStream`, the
`MediaRecorder` constructor). -/
structure CaptureEnv where
  canvasPresent : Bool
  audioSetupThrows : Bool
  captureStreamThrows : Bool
  recorderCtorThrows : Bool
  deriving DecidableEq

/-- The `startRecording` handler.  In source order: an early return when the
canvas ref is missing; `setIsRecording(true)`; reset of the playback cursor;
`setupAudioContext()`; `canvasRef.current.captureStream(30)`; construction of
the `MediaRecorder`; `recorder.start()`; `setIsPlaying(true)`.  The function
body contains no try/catch, so an exception from any capture API propagates to
the caller with whatever state updates were already issued; `Except.error`
carries the component state at the moment of the throw. -/
def startRecording (env : CaptureEnv) (s : PlayerState) :
    Except PlayerState PlayerState :=
  if !env.canvasPresent then .ok s
  else
    let s1 : PlayerState :=
      { s with isRecording := true, currentSceneIndex := 0, currentDialogueIndex := 0 }
    if env.audioSetupThrows then .error s1
    else if env.captureStreamThrows then .error s1
    else if env.recorderCtorThrows then .error s1
    else .ok { s1 with isPlaying := true }

/-- A dialogue line with the given text and no audio. -/
def mkDialogue (t : String) : Dialogue :=
  { id := "d", characterId := "c", text := t, emotion := "neutral",
    audioUrl := none, isGeneratingAudio := false }

/-- A scene with the given `order` field and dialogue lines. -/
def mkScene (ord : Nat) (ds : List Dialogue) : Scene :=
  { id := "s", order := ord, description := "", imagePrompt := "",
    imageUrl := none, dialogues := ds, isGeneratingImage := false, duration := none }

/-- Two scenes of one dialogue line each, array position matching `order`. -/
def twoScenes : List Scene :=
  [mkScene 0 [mkDialogue "hi"], mkScene 1 [mkDialogue "yo"]]

/-- Two scenes stored in reverse of their `order` field: the scene with
`order = 1` sits at array position 0, the scene with `order = 0` at position 1.
The order values are a dense index (a permutation of `0, 1`). -/
def reversedOrderScenes : List Scene :=
  [mkScene 1 [mkDialogue "hi"], mkScene 0 [mkDialogue "yo"]]

/-- The spec's example project: 2 scenes with 2 and 1 dialogue lines. -/
def exampleScenes : List Scene :=
  [mkScene 0 [mkDialogue "a", mkDialogue "b"], mkScene 1 [mkDialogue "c"]]

/-- Claim C1 (code bug in the source): `startRecording` contains no try/catch,
so when `canvas.captureStream` throws, the exception is surfaced to the caller,
but `setIsRecording(true)` has already run and no cleanup resets it: the
component is left with `isRecording = true` (every control is rendered with
`disabled={isRecording}`, so the UI is stuck), contradicting the claim that the
recording state is reset to not-recording and not-playing on capture failure. -/
theorem startRecording_throw_leaves_recording :
    startRecording (CaptureEnv.mk true false true false) (PlayerState.mk 0 0 false false) =
      Except.error (PlayerState.mk 0 0 false true) ∧
    (PlayerState.mk 0 0 false true).isRecording = true :=
  ⟨rfl, rfl⟩

/-- Claim C3 (code bug in the source): pausing does freeze the cursor itself,
but a pending scene-transition `setTimeout` callback performs no `isPlaying`
check and still advances the scene while paused (here from `(0,1)` paused to
`(1,0)`), and a dwell `setTimeout` scheduled before the pause fires
`handleDialogueEnd` whose closure captured `isPlaying = true`, advancing the
dialogue index on the paused state.  Both contradict the claim that every
pending callback firing after pause is a no-op. -/
theorem pausedCallbacks_advance_cursor :
    clickPlayPause (PlayerState.mk 0 1 true false) = PlayerState.mk 0 1 false false ∧
    sceneFinishedTimeout twoScenes (PlayerState.mk 0 1 true false)
      (PlayerState.mk 0 1 false false) = PlayerState.mk 1 0 false false ∧
    handleDialogueEnd (PlayerState.mk 0 0 true false) (PlayerState.mk 0 0 false false) =
      PlayerState.mk 0 1 false false := by
  decide

/-- Claim C4 counterexample: invoking rewind at `(2, 3, isPlaying := true)`
yields `(0, 0, true, false)`, not the claimed `(0, 0, false, false)`: the
handler only resets the two indices and does not stop playback. -/
theorem clickRewind_keeps_playing :
    clickRewind (PlayerState.mk 2 3 true false) = PlayerState.mk 0 0 true false ∧
    clickRewind (PlayerState.mk 2 3 true false) ≠ PlayerState.mk 0 0 false false := by
  decide

/-- Claim C4 (amended): the rewind control resets `currentSceneIndex` and
`currentDialogueIndex` to 0 when not recording, and always leaves `isPlaying`
and `isRecording` unchanged (while recording the button is disabled and the
click changes nothing). -/
theorem clickRewind_frame_effect :
    ∀ s : PlayerState,
      (clickRewind s).isPlaying = s.isPlaying ∧
      (clickRewind s).isRecording = s.isRecording ∧
      (s.isRecording = false →
        (clickRewind s).currentSceneIndex = 0 ∧ (clickRewind s).currentDialogueIndex = 0) ∧
      (s.isRecording = true → clickRewind s = s) := by
  intro s
  unfold clickRewind
  cases h : s.isRecording <;> simp [h]

/-- Claim C4 witness: the amended statement at a concrete playing state. -/
theorem clickRewind_frame_effect_witness :
    (clickRewind (PlayerState.mk 2 3 true false)).isPlaying = true ∧
    (clickRewind (PlayerState.mk 2 3 true false)).currentSceneIndex = 0 :=
  ⟨(clickRewind_frame_effect (PlayerState.mk 2 3 true false)).1,
   ((clickRewind_frame_effect (PlayerState.mk 2 3 true false)).2.2.1 rfl).1⟩

/-- Claim C5: while `isRecording = true` every transport control (the
play/pause toggle, rewind, next-scene) is rendered disabled, so invoking it
leaves the whole playback state unchanged. -/
theorem transport_controls_noop_while_recording :
    ∀ (scenes : List Scene) (s : PlayerState), s.isRecording = true →
      clickPlayPause s = s ∧ clickRewind s = s ∧ clickNextScene scenes s = s := by
  intro scenes s h
  unfold clickPlayPause clickRewind clickNextScene
  simp [h]

/-- Claim C5 witness: the statement at a concrete recording state. -/
theorem transport_controls_noop_while_recording_witness :
    clickPlayPause (PlayerState.mk 0 0 false true) = PlayerState.mk 0 0 false true ∧
    clickRewind (PlayerState.mk 0 0 false true) = PlayerState.mk 0 0 false true ∧
    clickNextScene twoScenes (PlayerState.mk 0 0 false true) = PlayerState.mk 0 0 false true :=
  transport_controls_noop_while_recording twoScenes (PlayerState.mk 0 0 false true) rfl

/-- Claim C6 counterexample: the animation clock is set at the first frame
(timestamp 100) and a scene change does not reset it: the first frame after
the change (timestamp 5000) produces elapsed time 4900, not 0, so the
transform does not restart from `elapsedMs = 0` at a scene change. -/
theorem animClock_not_reset_on_scene_change :
    (runClock (AnimClock.mk 0)
      [ClockEvent.tick 100, ClockEvent.sceneChange, ClockEvent.tick 5000]).2 = [0, 4900] ∧
    (4900 : Nat) ≠ 0 := by
  decide

/-- Helper: once the clock origin is set (nonzero), every later frame measures
from it and no event changes it. -/
theorem runClock_started :
    ∀ (evs : List ClockEvent) (a : AnimClock), a.startTime ≠ 0 →
      (runClock a evs).1 = a ∧
      (runClock a evs).2 = (ticksOf evs).map fun t => t - a.startTime := by
  intro evs
  induction evs with
  | nil => intro a _; exact ⟨rfl, rfl⟩
  | cons e es ih =>
    intro a h
    cases e with
    | tick t =>
      have hr : renderTick a t = (a, t - a.startTime) := by
        unfold renderTick
        simp [h]
      simp [runClock, hr, ticksOf, (ih a h).1, (ih a h).2]
    | sceneChange =>
      simpa [runClock, sceneChangeClock, ticksOf] using ih a h

/-- Claim C6 (amended): the Animator's time origin is fixed at the first
render frame of the playback session and is never reset: a scene change leaves
the clock untouched, and every subsequent frame reports time elapsed since
that first frame, not since the current scene became visible. -/
theorem animClock_origin_is_first_tick :
    ∀ (t0 : Nat) (evs : List ClockEvent), t0 ≠ 0 →
      (runClock (AnimClock.mk 0) (ClockEvent.tick t0 :: evs)).2 =
        0 :: ((ticksOf evs).map fun t => t - t0) := by
  intro t0 evs h
  have hr : renderTick (AnimClock.mk 0) t0 = (AnimClock.mk t0, 0) := by
    unfold renderTick
    simp
  simp [runClock, hr, (runClock_started evs (AnimClock.mk t0) h).2]

/-- Claim C6 witness: the amended statement on a concrete event sequence with
a scene change between two frames. -/
theorem animClock_origin_is_first_tick_witness :
    (runClock (AnimClock.mk 0)
      [ClockEvent.tick 7, ClockEvent.tick 10, ClockEvent.sceneChange, ClockEvent.tick 20]).2 =
      0 :: ((ticksOf [ClockEvent.tick 10, ClockEvent.sceneChange, ClockEvent.tick 20]).map
        fun t => t - 7) :=
  animClock_origin_is_first_tick 7
    [ClockEvent.tick 10, ClockEvent.sceneChange, ClockEvent.tick 20] (by decide)

/-- Claim C8: for a dialogue line without audio the sequencer dwells for
`max(2000, 50 * len(text))` milliseconds; the dwell is never below 2000 ms and
is monotone non-decreasing in the text length. -/
theorem dwellDuration_spec :
    ∀ d : Dialogue, d.audioUrl = none →
      dialogueAction d = LineStep.dwell (dwellDuration d.text) ∧
      dwellDuration d.text = max 2000 (50 * d.text.length) ∧
      2000 ≤ dwellDuration d.text ∧
      ∀ t2 : String, d.text.length ≤ t2.length → dwellDuration d.text ≤ dwellDuration t2 := by
  intro d h
  refine ⟨by simp [dialogueAction, h], by simp [dwellDuration, Nat.mul_comm],
    le_max_left _ _, ?_⟩
  intro t2 hlen
  unfold dwellDuration
  exact max_le_max le_rfl (Nat.mul_le_mul_right _ hlen)

/-- Claim C8 witness: the statement at a concrete audio-less dialogue line and
a longer second text. -/
theorem dwellDuration_spec_witness :
    2000 ≤ dwellDuration (mkDialogue "hello").text ∧
    dwellDuration (mkDialogue "hello").text ≤ dwellDuration "hello world" :=
  ⟨(dwellDuration_spec (mkDialogue "hello") rfl).2.2.1,
   (dwellDuration_spec (mkDialogue "hello") rfl).2.2.2 "hello world" (by decide)⟩

/-- Claim C10: the next-scene control changes at most `currentSceneIndex`:
dialogue index, playing and recording flags are always unchanged; on an empty
scene list or at (or past) the last scene it is a total no-op; it preserves
the bound `currentSceneIndex ≤ scenes.length - 1`; and when not recording and
strictly before the last scene it increments the scene index by one (never
resetting the dialogue index). -/
theorem clickNextScene_frame_effect :
    ∀ (scenes : List Scene) (s : PlayerState),
      (clickNextScene scenes s).currentDialogueIndex = s.currentDialogueIndex ∧
      (clickNextScene scenes s).isPlaying = s.isPlaying ∧
      (clickNextScene scenes s).isRecording = s.isRecording ∧
      (scenes = [] → clickNextScene scenes s = s) ∧
      ((scenes.length : Int) - 1 ≤ (s.currentSceneIndex : Int) → clickNextScene scenes s = s) ∧
      ((s.currentSceneIndex : Int) ≤ (scenes.length : Int) - 1 →
        ((clickNextScene scenes s).currentSceneIndex : Int) ≤ (scenes.length : Int) - 1) ∧
      (s.isRecording = false → (s.currentSceneIndex : Int) < (scenes.length : Int) - 1 →
        (clickNextScene scenes s).currentSceneIndex = s.currentSceneIndex + 1) := by
  intro scenes s
  refine ⟨?_, ?_, ?_, ?_, ?_, ?_, ?_⟩
  · unfold clickNextScene
    split_ifs <;> rfl
  · unfold clickNextScene
    split_ifs <;> rfl
  · unfold clickNextScene
    split_ifs <;> rfl
  · intro he
    unfold clickNextScene
    split_ifs with h1 h2
    · rfl
    · exfalso
      subst he
      simp at h2
      omega
    · rfl
  · intro hge
    unfold clickNextScene
    split_ifs with h1 h2
    · rfl
    · exfalso
      omega
    · rfl
  · intro hle
    unfold clickNextScene
    split_ifs with h1 h2
    · exact hle
    · show ((s.currentSceneIndex + 1 : Nat) : Int) ≤ (scenes.length : Int) - 1
      push_cast
      push_cast at h2
      omega
    · exact hle
  · intro hrec hlt
    unfold clickNextScene
    split_ifs with h1
    · rw [hrec] at h1
      exact absurd h1 (by simp)
    · rfl

/-- Claim C10 witness: at `(0, 5, playing, not recording)` with two scenes the
control increments the scene index and keeps the dialogue index. -/
theorem clickNextScene_frame_effect_witness :
    (clickNextScene twoScenes (PlayerState.mk 0 5 true false)).currentSceneIndex = 0 + 1 ∧
    (clickNextScene twoScenes (PlayerState.mk 0 5 true false)).currentDialogueIndex = 5 :=
  ⟨(clickNextScene_frame_effect twoScenes (PlayerState.mk 0 5 true false)).2.2.2.2.2.2
      rfl (by decide),
   (clickNextScene_frame_effect twoScenes (PlayerState.mk 0 5 true false)).1⟩

/-- Claim C7 counterexample: `5000π` ms is not a period of the zoom factor.
At `t = 2500π` (a legal elapsed time, `t ≥ 0`) the zoom is `1.05`, while at
`t + 5000π` it is `0.95`; the actual period of `sin(t * 0.0002)` is `10000π`
ms (`2π / 0.0002`). -/
theorem scaleAt_period_5000pi_false :
    (0 : ℝ) ≤ 2500 * Real.pi ∧
    scaleAt (2500 * Real.pi + 5000 * Real.pi) ≠ scaleAt (2500 * Real.pi) := by
  constructor
  · positivity
  · have h1 : scaleAt (2500 * Real.pi) = 1.05 := by
      unfold scaleAt
      have e : (2500 * Real.pi) * 0.0002 = Real.pi / 2 := by ring
      rw [e, Real.sin_pi_div_two]
      norm_num
    have h2 : scaleAt (2500 * Real.pi + 5000 * Real.pi) = 0.95 := by
      unfold scaleAt
      have e : (2500 * Real.pi + 5000 * Real.pi) * 0.0002 = Real.pi + Real.pi / 2 := by
        ring
      rw [e, Real.sin_add, Real.sin_pi, Real.cos_pi, Real.sin_pi_div_two,
        Real.cos_pi_div_two]
      norm_num
    rw [h1, h2]
    norm_num

/-- Claim C7 (amended): for every elapsed time `t ≥ 0` the render loop
computes exactly `scale = 1.0 + 0.05 · sin(t · 0.0002)` and
`panX = 20 · sin(t · 0.0001)`; hence the zoom lies in `[0.95, 1.05]` and is
periodic with period `10000π` ms (the pan with period `20000π` ms), not
`5000π` ms as claimed. -/
theorem scaleAt_formula_range_period :
    ∀ t : ℝ, 0 ≤ t →
      scaleAt t = 1.0 + 0.05 * Real.sin (t * 0.0002) ∧
      panXAt t = 20 * Real.sin (t * 0.0001) ∧
      0.95 ≤ scaleAt t ∧ scaleAt t ≤ 1.05 ∧
      scaleAt (t + 10000 * Real.pi) = scaleAt t ∧
      panXAt (t + 20000 * Real.pi) = panXAt t := by
  intro t _
  have hs1 := Real.neg_one_le_sin (t * 0.0002)
  have hs2 := Real.sin_le_one (t * 0.0002)
  refine ⟨by unfold scaleAt; ring, by unfold panXAt; ring, ?_, ?_, ?_, ?_⟩
  · unfold scaleAt
    linarith
  · unfold scaleAt
    linarith
  · unfold scaleAt
    have e : (t + 10000 * Real.pi) * 0.0002 = t * 0.0002 + 2 * Real.pi := by ring
    rw [e, Real.sin_add_two_pi]
  · unfold panXAt
    have e : (t + 20000 * Real.pi) * 0.0001 = t * 0.0001 + 2 * Real.pi := by ring
    rw [e, Real.sin_add_two_pi]

/-- Claim C7 witness: the amended statement at `t = 0`. -/
theorem scaleAt_formula_range_period_witness :
    scaleAt 0 = 1.0 + 0.05 * Real.sin (0 * 0.0002) ∧
    panXAt 0 = 20 * Real.sin (0 * 0.0001) ∧
    (0.95 : ℝ) ≤ scaleAt 0 ∧ scaleAt 0 ≤ 1.05 ∧
    scaleAt (0 + 10000 * Real.pi) = scaleAt 0 ∧
    panXAt (0 + 20000 * Real.pi) = panXAt 0 :=
  scaleAt_formula_range_period 0 le_rfl

/-- Helper: one unfolding step of the bounded run. -/
theorem runFrom_succ (scenes : List Scene) (fuel si di : Nat) :
    runFrom scenes (fuel + 1) si di =
      match scenes.get? si with
      | none => []
      | some sc =>
        if di < sc.dialogues.length then (si, di) :: runFrom scenes fuel si (di + 1)
        else if si < scenes.length - 1 then runFrom scenes fuel (si + 1) 0
        else [] := rfl

/-- Helper: a defined scene at index `si` heads the dropped suffix. -/
theorem drop_eq_cons_of_get? (scenes : List Scene) (si : Nat) (sc : Scene)
    (hsc : scenes.get? si = some sc) :
    scenes.drop si = sc :: scenes.drop (si + 1) := by
  obtain ⟨hlt, hget⟩ := List.get?_eq_some.1 hsc
  rw [← List.getElem_cons_drop scenes si hlt]
  simp [← hget]

/-- Helper: the fuel bound decomposes scene by scene. -/
theorem costFrom_succ (scenes : List Scene) (si : Nat) (sc : Scene)
    (hsc : scenes.get? si = some sc) :
    costFrom scenes si = sc.dialogues.length + 1 + costFrom scenes (si + 1) := by
  unfold costFrom
  rw [drop_eq_cons_of_get? scenes si sc hsc]
  simp
  omega

/-- Helper: within one scene, the run emits one cursor position per remaining
dialogue line, then continues at the end of the scene. -/
theorem runFrom_scene_steps (scenes : List Scene) (si : Nat) (sc : Scene)
    (hsc : scenes.get? si = some sc) :
    ∀ (k fuel di : Nat), di + k = sc.dialogues.length → k ≤ fuel →
      runFrom scenes fuel si di =
        ((List.range' di k).map fun j => (si, j)) ++
          runFrom scenes (fuel - k) si (di + k) := by
  intro k
  induction k with
  | zero =>
    intro fuel di _ _
    simp
  | succ k ih =>
    intro fuel di hlen hfuel
    cases fuel with
    | zero => omega
    | succ f =>
      have hdi : di < sc.dialogues.length := by omega
      have step : runFrom scenes (f + 1) si di = (si, di) :: runFrom scenes f si (di + 1) := by
        rw [runFrom_succ, hsc]
        simp [hdi]
      rw [step, ih f (di + 1) (by omega) (by omega)]
      have e1 : f + 1 - (k + 1) = f - k := by omega
      have e2 : di + (k + 1) = di + 1 + k := by omega
      rw [e1, e2, List.range'_succ]
      simp

/-- Helper: at the end of a scene the run takes the transition step. -/
theorem runFrom_scene_end (scenes : List Scene) (f si di : Nat) (sc : Scene)
    (hsc : scenes.get? si = some sc) (hdi : ¬ di < sc.dialogues.length) :
    runFrom scenes (f + 1) si di =
      if si < scenes.length - 1 then runFrom scenes f (si + 1) 0 else [] := by
  rw [runFrom_succ, hsc]
  simp [hdi]

/-- Helper: with enough fuel, the run starting at scene `si`, dialogue 0,
enumerates the remaining cursor positions in array order. -/
theorem runFrom_eq_lexAux (scenes : List Scene) :
    ∀ (n si fuel : Nat), scenes.length ≤ si + n → costFrom scenes si ≤ fuel →
      runFrom scenes fuel si 0 = lexAux si (scenes.drop si) := by
  intro n
  induction n with
  | zero =>
    intro si fuel hn _
    have hnone : scenes.get? si = none := List.get?_eq_none.2 (by omega)
    have hdrop : scenes.drop si = [] := List.drop_eq_nil_of_le (by omega)
    rw [hdrop]
    cases fuel with
    | zero => rfl
    | succ f =>
      rw [runFrom_succ, hnone]
      rfl
  | succ n ih =>
    intro si fuel hn hfuel
    cases hsc : scenes.get? si with
    | none =>
      have hlen : scenes.length ≤ si := List.get?_eq_none.1 hsc
      have hdrop : scenes.drop si = [] := List.drop_eq_nil_of_le hlen
      rw [hdrop]
      cases fuel with
      | zero => rfl
      | succ f =>
        rw [runFrom_succ, hsc]
        rfl
    | some sc =>
      have hlt : si < scenes.length := (List.get?_eq_some.1 hsc).1
      have hcost := costFrom_succ scenes si sc hsc
      have hcost1 : 1 ≤ costFrom scenes (si + 1) := by
        unfold costFrom
        omega
      rw [runFrom_scene_steps scenes si sc hsc sc.dialogues.length fuel 0 (by omega)
        (by omega)]
      obtain ⟨f, hf⟩ : ∃ f, fuel - sc.dialogues.length = f + 1 :=
        ⟨fuel - sc.dialogues.length - 1, by omega⟩
      rw [Nat.zero_add, hf,
        runFrom_scene_end scenes f si sc.dialogues.length sc hsc (lt_irrefl _)]
      rw [drop_eq_cons_of_get? scenes si sc hsc]
      show _ = lexAux si (sc :: scenes.drop (si + 1))
      rw [lexAux, ← List.range_eq_range']
      by_cases hlast : si < scenes.length - 1
      · rw [if_pos hlast, ih (si + 1) f (by omega) (by omega)]
      · rw [if_neg hlast]
        have hdrop2 : scenes.drop (si + 1) = [] := List.drop_eq_nil_of_le (by omega)
        rw [hdrop2]
        rfl

/-- Claim C2 (amended): playback traverses scenes in array (storage) order,
not sorted by the `order` field, and within each scene visits dialogue lines
in array-index order: a full run enumerates exactly the cursor positions
`(i, j)` in lexicographic order of array indices; in particular, for 2 scenes
with 2 and 1 dialogues it visits `(0,0), (0,1), (1,0)` and then finishes. -/
theorem playTrace_array_order :
    (∀ scenes : List Scene, playTrace scenes = lexTrace scenes) ∧
    playTrace exampleScenes = [(0, 0), (0, 1), (1, 0)] := by
  constructor
  · intro scenes
    unfold playTrace lexTrace
    have hc : costFrom scenes 0 ≤ traceFuel scenes := by
      unfold costFrom traceFuel
      simp
    have h := runFrom_eq_lexAux scenes scenes.length 0 (traceFuel scenes) (by omega) hc
    simpa using h
  · decide

/-- Claim C2 counterexample: a project whose scenes carry the dense order
index `{0, 1}` but are stored in reverse (the scene with `order = 1` at array
position 0).  Playback visits the scene with `order = 1` before the scene with
`order = 0`: traversal follows storage order, not ascending `order`. -/
theorem playTrace_not_sorted_by_order :
    visitedOrders reversedOrderScenes = [1, 0] ∧
    (reversedOrderScenes.map Scene.order).Perm (List.range 2) ∧
    ¬ List.Chain' (· ≤ ·) (visitedOrders reversedOrderScenes) := by
  have h1 : visitedOrders reversedOrderScenes = [1, 0] := by decide
  refine ⟨h1, by decide, ?_⟩
  rw [h1]
  intro h
  rw [List.chain'_cons] at h
  exact absurd h.1 (by decide)

/-- Helper: appending to the empty string is the identity. -/
theorem empty_append_str (s : String) : "" ++ s = s := by
  cases s
  rfl

/-- Helper: `String.length` is a measured-width function that is monotone
under string extension. -/
theorem length_monotone : MonotoneMeasure String.length := by
  intro s t
  rw [String.length_append]
  omega

/-- Helper: every line flushed by the wrap loop either measures within the
limit or is a single input word followed by the appended separator space.
`W` is any superset of the words still to be processed; the invariant says the
accumulator is itself within the limit or a single word, except at the very
first iteration where it is the empty string. -/
theorem wrapLines_sound (measure : String → Nat) (maxWidth : Nat) (W : List String) :
    ∀ (ws : List String) (n : Nat) (line : String), (∀ w ∈ ws, w ∈ W) →
      ((0 < n ∧ (measure line ≤ maxWidth ∨ ∃ w ∈ W, line = w ++ " ")) ∨
        (n = 0 ∧ line = "" ∧ ws ≠ [])) →
      ∀ l ∈ wrapLines measure maxWidth ws n line,
        measure l ≤ maxWidth ∨ ∃ w ∈ W, l = w ++ " " := by
  intro ws
  induction ws with
  | nil =>
    intro n line _ hinv l hl
    simp only [wrapLines, List.mem_singleton] at hl
    subst hl
    rcases hinv with ⟨_, hP⟩ | ⟨_, _, hne⟩
    · exact hP
    · exact absurd rfl hne
  | cons w ws ih =>
    intro n line hsub hinv l hl
    simp only [wrapLines] at hl
    by_cases hc : maxWidth < measure (line ++ w ++ " ") ∧ 0 < n
    · rw [if_pos hc] at hl
      rcases List.mem_cons.1 hl with rfl | hl2
      · rcases hinv with ⟨_, hP⟩ | ⟨hn0, _, _⟩
        · exact hP
        · have h2 := hc.2
          omega
      · exact ih (n + 1) (w ++ " ") (fun x hx => hsub x (List.mem_cons_of_mem w hx))
          (Or.inl ⟨Nat.succ_pos n, Or.inr ⟨w, hsub w (List.mem_cons_self w ws), rfl⟩⟩) l hl2
    · rw [if_neg hc] at hl
      refine ih (n + 1) (line ++ w ++ " ") (fun x hx => hsub x (List.mem_cons_of_mem w hx))
        (Or.inl ⟨Nat.succ_pos n, ?_⟩) l hl
      rcases hinv with ⟨hn, _⟩ | ⟨_, hline, _⟩
      · left
        have hnot : ¬ maxWidth < measure (line ++ w ++ " ") := fun hlt => hc ⟨hlt, hn⟩
        omega
      · right
        refine ⟨w, hsub w (List.mem_cons_self w ws), ?_⟩
        subst hline
        rw [empty_append_str]

/-- Claim C9 (amended): for every input text, max width and measured-width
function monotone under extension, every line the greedy wrap emits whose
measured width exceeds the max width is a single input word together with the
separator space the loop appends to every word (the width test measures
`line + word + ' '`, so a word whose width is within the limit can still yield
an over-wide line once its trailing space is counted); all other lines measure
within the limit, and an over-wide word always occupies its own line,
unbroken. -/
theorem wrapText_overflow_is_single_word :
    ∀ (measure : String → Nat) (maxWidth : Nat) (text : String),
      MonotoneMeasure measure →
      ∀ l ∈ wrapText measure maxWidth text, maxWidth < measure l →
        ∃ w ∈ splitWords text, l = w ++ " " := by
  intro measure maxWidth text _ l hl hover
  have hne : splitWords text ≠ [] := by
    unfold splitWords
    simp
  have hsound := wrapLines_sound measure maxWidth (splitWords text) (splitWords text) 0 ""
    (fun _ hx => hx) (Or.inr ⟨rfl, rfl, hne⟩) l hl
  rcases hsound with hle | hex
  · omega
  · exact hex

/-- Claim C9 counterexample: with the monotone measure `String.length` and
max width 5, the input "abcde x" makes the loop flush the line "abcde " of
measured width 6 > 5, although no single word of the input exceeds the limit
("abcde" measures 5 ≤ 5, "x" measures 1): the claim's only allowed exception
(a single word alone exceeding the limit) does not apply, because the width
test counts the separator space appended after every word. -/
theorem wrapText_overflow_without_oversized_word :
    MonotoneMeasure String.length ∧
    wrapText String.length 5 "abcde x" = ["abcde ", "x "] ∧
    5 < String.length "abcde " ∧
    splitWords "abcde x" = ["abcde", "x"] ∧
    String.length "abcde" ≤ 5 ∧ String.length "x" ≤ 5 :=
  ⟨length_monotone, by decide, by decide, by decide, by decide, by decide⟩

/-- Claim C9 witness: the amended statement at the concrete overflowing line
of the counterexample input. -/
theorem wrapText_overflow_is_single_word_witness :
    ∃ w ∈ splitWords "abcde x", "abcde " = w ++ " " :=
  wrapText_overflow_is_single_word String.length 5 "abcde x" length_monotone
    "abcde " (by decide) (by decide)
